import Mathlib

/-!
Shallow embedding of the claim-based work-queue of the github scraper
repository: the PostgreSQL-backed `DatabaseRepository`
(src/database/repository.py), the profile fetch loop
(src/scrapers/profile_scraper.py) and the social-link extraction helper.

Timestamps are modelled as integers measured in minutes (the staleness
interval of `claim_batch_for_processing` is expressed in minutes in the
SQL).  The developers table is modelled as a list of rows kept in
ascending `id` order, which is how a SERIAL primary key combined with
append-only INSERTs stores them; every UPDATE below is a `List.map`, so
the order is preserved and `ORDER BY id` coincides with list order.
-/

set_option maxRecDepth 20000

namespace GithubScraper

/-- The enrichment_status enum from src/database/models.py /
create_tables. -/
inductive EnrichmentStatus where
  | INITIAL
  | PROCESSING
  | PROFILED
  | ENHANCED
  | FAILED
deriving DecidableEq, Repr

open EnrichmentStatus

/-- One row of the developers table (the WorkItem of the spec).
Only the columns the repository operations read or write are kept;
timestamps are integer minutes. -/
structure WorkItem where
  id : Nat
  username : String
  enrichment_status : EnrichmentStatus := INITIAL
  retry_count : Nat := 0
  last_error : Option String := none
  processing_started_at : Option Int := none
  claimed_by : Option String := none
  name : Option String := none
  email : Option String := none
  bio : Option String := none
  location : Option String := none
  company : Option String := none
  blog : Option String := none
  twitter_username : Option String := none
  hireable : Option Bool := none
  followers : Nat := 0
  following : Nat := 0
  public_repos : Nat := 0
  public_gists : Nat := 0
  profile_url : Option String := none
  avatar_url : Option String := none
  created_at : Option Int := none
  updated_at : Option Int := none
  profiled_at : Option Int := none
deriving DecidableEq, Repr

/-- One row of the social_links child table. -/
structure SocialLinkRow where
  developer_id : Nat
  platform : String
  url : String
deriving DecidableEq, Repr

/-- One row of the repositories child table. -/
structure RepositoryRow where
  developer_id : Nat
  name : String
  stars : Nat
  language : Option String
  url : Option String
  description : Option String
  repo_order : Nat
deriving DecidableEq, Repr

/-- The relational store: the developers table plus the two child
tables.  next_id models the SERIAL sequence. -/
structure Database where
  developers : List WorkItem := []
  social_links : List SocialLinkRow := []
  repositories : List RepositoryRow := []
  next_id : Nat := 1
deriving DecidableEq, Repr

/-- Lookup of the (unique) developers row with the given username,
as a SELECT by the unique key. -/
def findUser (db : Database) (u : String) : Option WorkItem :=
  db.developers.find? (fun w => w.username = u)

/-! ## insert_usernames_batch -/

/-- Effect of one statement
INSERT INTO developers (username, enrichment_status)
VALUES (u, INITIAL) ON CONFLICT (username) DO NOTHING;
returns the new table state together with the statement rowcount
(1 when a row was inserted, 0 on conflict). -/
def insert_one (db : Database) (u : String) : Database × Nat :=
  if db.developers.any (fun w => w.username = u) then
    (db, 0)
  else
    ({ db with
        developers := db.developers ++ [{ id := db.next_id, username := u }]
        next_id := db.next_id + 1 }, 1)

/-- Runs the batch of single-row inserts left to right, carrying the
rowcount of the most recently executed statement (psycopg2 keeps only
the last statement result of an execute of several ;-joined
statements, and execute_batch issues the statements in order). -/
def insert_fold (db : Database) (last : Int) : List String → Database × Int
  | [] => (db, last)
  | u :: us =>
      let r := insert_one db u
      insert_fold r.1 (Int.ofNat r.2) us

/-- DatabaseRepository.insert_usernames_batch: executes the per-row
inserts via psycopg2 execute_batch and returns cursor.rowcount, i.e.
the rowcount of the last statement executed (-1, the initial cursor
state, when the batch is empty). -/
def insert_usernames_batch (db : Database) (usernames : List String) :
    Database × Int :=
  insert_fold db (-1) usernames

/-- The number of rows the batch actually added (what the spec calls
the count of newly-inserted rows). -/
def newlyInserted (db : Database) (usernames : List String) : Nat :=
  (insert_usernames_batch db usernames).1.developers.length -
    db.developers.length

/-! ## claim_batch_for_processing -/

/-- True when a row is matched by the stale-release UPDATE:
status PROCESSING and processing_started_at < NOW() - timeout minutes
(a NULL processing_started_at compares to nothing and is not
matched). -/
def isStale (now : Int) (timeoutMinutes : Int) (w : WorkItem) : Bool :=
  w.enrichment_status = PROCESSING &&
    (match w.processing_started_at with
     | some t => decide (t < now - timeoutMinutes)
     | none => false)

/-- Step 1 of claim_batch_for_processing: release stale claims.
UPDATE developers SET enrichment_status = fromStatus, claimed_by =
NULL, processing_started_at = NULL WHERE status = PROCESSING AND
processing_started_at < NOW() - timeout.  Returns the new table and
the rowcount of released rows. -/
def release_stale_claims (fromStatus : EnrichmentStatus)
    (timeoutMinutes : Int) (now : Int) (db : Database) :
    Database × Nat :=
  ({ db with
      developers := db.developers.map (fun w =>
        if isStale now timeoutMinutes w then
          { w with
              enrichment_status := fromStatus
              claimed_by := none
              processing_started_at := none }
        else w) },
   (db.developers.filter (isStale now timeoutMinutes)).length)

/-- The inner SELECT of step 2: ids of up to limit rows with status =
fromStatus, in id order (the developers list is kept in id order). -/
def claim_candidate_ids (db : Database) (fromStatus : EnrichmentStatus)
    (lim : Nat) : List Nat :=
  (((db.developers.filter
      (fun w => w.enrichment_status = fromStatus)).take lim).map
    (fun w => w.id))

/-- The UPDATE of step 2 applied to every row whose id is in the
selected set: status PROCESSING, claimed_by = instance, started =
now. -/
def mark_claimed (instance_id : String) (now : Int) (ids : List Nat)
    (db : Database) : Database :=
  { db with
      developers := db.developers.map (fun w =>
        if w.id ∈ ids then
          { w with
              enrichment_status := PROCESSING
              claimed_by := some instance_id
              processing_started_at := some now }
        else w) }

/-- Step 2 of claim_batch_for_processing: claim up to limit rows with
the given status and return their usernames. -/
def claim_step (fromStatus : EnrichmentStatus) (lim : Nat)
    (instance_id : String) (now : Int) (db : Database) :
    List String × Database :=
  let ids := claim_candidate_ids db fromStatus lim
  (((db.developers.filter (fun w => w.id ∈ ids)).map
      (fun w => w.username)),
   mark_claimed instance_id now ids db)

/-- DatabaseRepository.claim_batch_for_processing: stale release then
atomic claim, in one transaction. -/
def claim_batch_for_processing (fromStatus : EnrichmentStatus)
    (lim : Nat) (instance_id : String) (timeoutMinutes : Int)
    (now : Int) (db : Database) : List String × Database :=
  claim_step fromStatus lim instance_id now
    (release_stale_claims fromStatus timeoutMinutes now db).1

/-! ## update_profile and the transaction wrapper -/

/-- The social-link dictionary built by the profile scraper, one
optional canonical URL per known platform plus the leftover URLs. -/
structure SocialLinks where
  twitter : Option String := none
  linkedin : Option String := none
  facebook : Option String := none
  instagram : Option String := none
  telegram : Option String := none
  youtube : Option String := none
  medium : Option String := none
  dev_to : Option String := none
  hashnode : Option String := none
  stackoverflow : Option String := none
  other_links : List String := []
deriving DecidableEq, Repr

/-- One of the top repositories captured by the profile fetch. -/
structure RepoInfo where
  name : String
  stars : Nat := 0
  language : Option String := none
  url : Option String := none
  description : Option String := none
deriving DecidableEq, Repr

/-- The profile dict assembled by fetch_profile and consumed by
update_profile. -/
structure Profile where
  username : String
  name : Option String := none
  email : Option String := none
  bio : Option String := none
  location : Option String := none
  company : Option String := none
  blog : Option String := none
  twitter_username : Option String := none
  hireable : Option Bool := none
  followers : Nat := 0
  following : Nat := 0
  public_repos : Nat := 0
  public_gists : Nat := 0
  profile_url : Option String := none
  avatar_url : Option String := none
  created_at : Option Int := none
  updated_at : Option Int := none
  social_links : SocialLinks := {}
  top_repos : List RepoInfo := []
deriving DecidableEq, Repr

/-- The row UPDATE inside update_profile: writes the profile columns,
sets status PROFILED, profiled_at = CURRENT_TIMESTAMP, retry_count =
0, clears last_error and the claim columns. -/
def profiledRow (p : Profile) (now : Int) (w : WorkItem) : WorkItem :=
  { w with
      name := p.name
      email := p.email
      bio := p.bio
      location := p.location
      company := p.company
      blog := p.blog
      twitter_username := p.twitter_username
      hireable := p.hireable
      followers := p.followers
      following := p.following
      public_repos := p.public_repos
      public_gists := p.public_gists
      profile_url := p.profile_url
      avatar_url := p.avatar_url
      created_at := p.created_at
      updated_at := p.updated_at
      enrichment_status := PROFILED
      profiled_at := some now
      retry_count := 0
      last_error := none
      claimed_by := none
      processing_started_at := none }

/-- UPDATE developers SET ... WHERE username = p.username RETURNING
id: the updated table together with the returned id when a row
matched. -/
def update_developers_row (p : Profile) (now : Int) (db : Database) :
    Option Nat × Database :=
  match findUser db p.username with
  | none => (none, db)
  | some w =>
      (some w.id,
       { db with
           developers := db.developers.map (fun r =>
             if r.username = p.username then profiledRow p now r
             else r) })

/-- Upsert of one social_links row:
ON CONFLICT (developer_id, platform) DO UPDATE SET url. -/
def upsert_social_link (db : Database) (row : SocialLinkRow) :
    Database :=
  if db.social_links.any (fun r =>
      r.developer_id = row.developer_id && r.platform = row.platform)
  then
    { db with
        social_links := db.social_links.map (fun r =>
          if r.developer_id = row.developer_id &&
              r.platform = row.platform then
            { r with url := row.url }
          else r) }
  else
    { db with social_links := db.social_links ++ [row] }

/-- The (developer_id, platform, url) triples _insert_social_links
builds: the platform fields in dict insertion order when non-null,
then the other links numbered other_1, other_2, ... -/
def socialLinkTriples (developer_id : Nat) (s : SocialLinks) :
    List SocialLinkRow :=
  (([(("twitter" : String), s.twitter), ("linkedin", s.linkedin),
     ("facebook", s.facebook), ("instagram", s.instagram),
     ("telegram", s.telegram), ("youtube", s.youtube),
     ("medium", s.medium), ("dev_to", s.dev_to),
     ("hashnode", s.hashnode),
     ("stackoverflow", s.stackoverflow)].filterMap (fun pr =>
        pr.2.map (fun u => SocialLinkRow.mk developer_id pr.1 u))) ++
   ((s.other_links.enum.map (fun pr =>
        SocialLinkRow.mk developer_id
          ("other_" ++ toString (pr.1 + 1)) pr.2))))

/-- DatabaseRepository._insert_social_links. -/
def insert_social_links (developer_id : Nat) (s : SocialLinks)
    (db : Database) : Database :=
  (socialLinkTriples developer_id s).foldl upsert_social_link db

/-- Upsert of one repositories row:
ON CONFLICT (developer_id, name) DO UPDATE SET the data columns. -/
def upsert_repository (db : Database) (row : RepositoryRow) :
    Database :=
  if db.repositories.any (fun r =>
      r.developer_id = row.developer_id && r.name = row.name)
  then
    { db with
        repositories := db.repositories.map (fun r =>
          if r.developer_id = row.developer_id && r.name = row.name
          then
            { r with
                stars := row.stars
                language := row.language
                url := row.url
                description := row.description
                repo_order := row.repo_order }
          else r) }
  else
    { db with repositories := db.repositories ++ [row] }

/-- The repositories rows _insert_repositories builds: one row per
top repo, repo_order equal to the position in the fetched list. -/
def repositoryRows (developer_id : Nat) (repos : List RepoInfo) :
    List RepositoryRow :=
  repos.enum.map (fun pr =>
    RepositoryRow.mk developer_id pr.2.name pr.2.stars
      pr.2.language pr.2.url pr.2.description pr.1)

/-- DatabaseRepository._insert_repositories. -/
def insert_repositories (developer_id : Nat) (repos : List RepoInfo)
    (db : Database) : Database :=
  (repositoryRows developer_id repos).foldl upsert_repository db

/-- SELECT of one social_links row by its unique
(developer_id, platform) key. -/
def findSocialLink (db : Database) (developer_id : Nat)
    (platform : String) : Option SocialLinkRow :=
  db.social_links.find? (fun r =>
    r.developer_id = developer_id && r.platform = platform)

/-- SELECT of one repositories row by its unique
(developer_id, name) key. -/
def findRepository (db : Database) (developer_id : Nat)
    (name : String) : Option RepositoryRow :=
  db.repositories.find? (fun r =>
    r.developer_id = developer_id && r.name = name)

/-- The get_cursor context manager: runs the transaction body; on
success the new state is committed, on any exception the whole
transaction is rolled back and the original state is kept while the
exception propagates. -/
def get_cursor {α : Type} (db : Database)
    (body : Database → Except String (α × Database)) :
    Except String α × Database :=
  match body db with
  | Except.ok (a, db2) => (Except.ok a, db2)
  | Except.error e => (Except.error e, db)

/-- The body of update_profile with the child-row insertion step
taken as a parameter: the row UPDATE, then (only when a row matched)
the child-row insertions, which may raise. -/
def update_profile_tx
    (insertChildren : Nat → Database → Except String Database)
    (p : Profile) (now : Int) (db : Database) :
    Except String (Option Nat) × Database :=
  get_cursor db (fun db0 =>
    let r := update_developers_row p now db0
    match r.1 with
    | some developer_id =>
        match insertChildren developer_id r.2 with
        | Except.ok db2 => Except.ok (some developer_id, db2)
        | Except.error e => Except.error e
    | none => Except.ok (none, r.2))

/-- The real child-row insertion of update_profile: social links then
repositories, never raising by itself. -/
def realInsertChildren (p : Profile) (developer_id : Nat)
    (db : Database) : Except String Database :=
  Except.ok
    (insert_repositories developer_id p.top_repos
      (insert_social_links developer_id p.social_links db))

/-- DatabaseRepository.update_profile. -/
def update_profile (p : Profile) (now : Int) (db : Database) :
    Option Nat × Database :=
  match update_profile_tx (realInsertChildren p) p now db with
  | (Except.ok r, db2) => (r, db2)
  | (Except.error _, db2) => (none, db2)

/-! ## mark_as_failed and increment_retry_count -/

/-- DatabaseRepository.mark_as_failed: status FAILED, last_error,
retry_count + 1, claim columns cleared. -/
def mark_as_failed (u : String) (err : String) (db : Database) :
    Database :=
  { db with
      developers := db.developers.map (fun w =>
        if w.username = u then
          { w with
              enrichment_status := FAILED
              last_error := some err
              retry_count := w.retry_count + 1
              claimed_by := none
              processing_started_at := none }
        else w) }

/-- DatabaseRepository.increment_retry_count: retry_count + 1,
last_error, status back to the given status, claim columns cleared;
returns the new retry count (0 when no row matched). -/
def increment_retry_count (u : String) (err : String)
    (back_to_status : EnrichmentStatus) (db : Database) :
    Nat × Database :=
  let db2 : Database :=
    { db with
        developers := db.developers.map (fun w =>
          if w.username = u then
            { w with
                retry_count := w.retry_count + 1
                last_error := some err
                enrichment_status := back_to_status
                claimed_by := none
                processing_started_at := none }
          else w) }
  (match findUser db u with
   | some w => w.retry_count + 1
   | none => 0, db2)

/-! ## The repository write operations as a step type -/

/-- One invocation of a write operation of the repository, with the
arguments the scraper passes. -/
inductive RepoOp where
  | insertBatch (usernames : List String)
  | claimBatch (fromStatus : EnrichmentStatus) (lim : Nat)
      (instance_id : String) (timeoutMinutes : Int) (now : Int)
  | commitProfile (p : Profile) (now : Int)
  | recordFailure (u : String) (err : String)
  | recordRetry (u : String) (err : String)
      (back_to_status : EnrichmentStatus)

/-- The state transformer of one write operation. -/
def applyOp (db : Database) : RepoOp → Database
  | RepoOp.insertBatch usernames =>
      (insert_usernames_batch db usernames).1
  | RepoOp.claimBatch fromStatus lim instance_id timeoutMinutes now =>
      (claim_batch_for_processing fromStatus lim instance_id
        timeoutMinutes now db).2
  | RepoOp.commitProfile p now => (update_profile p now db).2
  | RepoOp.recordFailure u err => mark_as_failed u err db
  | RepoOp.recordRetry u err back_to_status =>
      (increment_retry_count u err back_to_status db).2

/-- The claim-field condition on one row: claimed_by and
processing_started_at are non-null exactly when the status is
PROCESSING. -/
def InvRow (w : WorkItem) : Prop :=
  (w.claimed_by.isSome = (w.enrichment_status = PROCESSING : Bool)) ∧
  (w.processing_started_at.isSome =
    (w.enrichment_status = PROCESSING : Bool))

instance (w : WorkItem) : Decidable (InvRow w) := by
  unfold InvRow; infer_instance

/-- The claim-field invariant of the spec, over the whole table. -/
def ClaimInvariant (db : Database) : Prop :=
  ∀ w ∈ db.developers, InvRow w

instance (db : Database) : Decidable (ClaimInvariant db) := by
  unfold ClaimInvariant; infer_instance

/-- The status arguments actually passed by the scraper: the claim
loop claims from and retries back to non-PROCESSING statuses
(INITIAL in the profile pipeline). -/
def OpStatusOk : RepoOp → Prop
  | RepoOp.claimBatch fromStatus _ _ _ _ => fromStatus ≠ PROCESSING
  | RepoOp.recordRetry _ _ back_to_status => back_to_status ≠ PROCESSING
  | _ => True

instance (op : RepoOp) : Decidable (OpStatusOk op) := by
  cases op <;> (unfold OpStatusOk; infer_instance)

/-! ## The fetch_profile retry loop of the profile scraper -/

/-- The outcome of one attempt of the loop body of fetch_profile: the
call chain get_client / get_user / repo listing either yields a
profile, raises RateLimitExceededException, or raises some other
exception (this generic bucket is what catches NotFound-style
permanent upstream errors too, since PyGithub raises them as plain
exceptions). -/
inductive AttemptOutcome where
  | ok (p : Profile)
  | rateLimited
  | err (msg : String)
deriving DecidableEq, Repr

/-- Per-pipeline counters of the metrics sink that the fetch path
touches, plus the driver-level counters. -/
structure Metrics where
  processed : Nat := 0
  success : Nat := 0
  failed : Nat := 0
  retries : Nat := 0
  rate_limit : Nat := 0
deriving DecidableEq, Repr

/-- The observable execution state threaded through fetch_profile:
the store, the metrics, and counters of the externally visible side
effects (API calls made, backoff sleeps slept, rate-limit cooldown
pauses with credential rotation). -/
structure FetchSt where
  db : Database
  metrics : Metrics := {}
  calls : Nat := 0
  sleeps : Nat := 0
  cooldowns : Nat := 0
deriving DecidableEq, Repr

/-- The for-loop of fetch_profile, by the number of attempts left in
the range(MAX_RETRIES) iterator.  oracle gives the outcome of the
n-th API call of this fetch (calls counts them).  A rate-limit
outcome increments the rate_limit metric, rotates the credential and
pauses (one cooldown), increments the retries metric and continues
with the NEXT iteration of the for loop; a generic exception
increments retries, then sleeps the backoff and retries while
attempts remain, and on the last attempt calls mark_as_failed and
returns None; falling off the end of the loop returns None. -/
def fetchAux (oracle : Nat → AttemptOutcome) (username : String) :
    Nat → FetchSt → Option Profile × FetchSt
  | 0, st => (none, st)
  | n + 1, st =>
      let outcome := oracle st.calls
      let st1 := { st with calls := st.calls + 1 }
      match outcome with
      | AttemptOutcome.ok p => (some p, st1)
      | AttemptOutcome.rateLimited =>
          fetchAux oracle username n
            { st1 with
                metrics :=
                  { st1.metrics with
                      rate_limit := st1.metrics.rate_limit + 1
                      retries := st1.metrics.retries + 1 }
                cooldowns := st1.cooldowns + 1 }
      | AttemptOutcome.err e =>
          let st2 :=
            { st1 with
                metrics :=
                  { st1.metrics with
                      retries := st1.metrics.retries + 1 } }
          if n = 0 then
            (none, { st2 with db := mark_as_failed username e st2.db })
          else
            fetchAux oracle username n { st2 with sleeps := st2.sleeps + 1 }

/-- ProfileScraper.fetch_profile with MAX_RETRIES attempts. -/
def fetch_profile (max_retries : Nat) (oracle : Nat → AttemptOutcome)
    (username : String) (st : FetchSt) : Option Profile × FetchSt :=
  fetchAux oracle username max_retries st

/-- The per-claimed-username body of ProfileScraper.scrape_profiles:
increment the processed metric, fetch the profile; on a profile,
commit it and count a success; on None, count a failure and nothing
else. -/
def process_claimed_username (max_retries : Nat)
    (oracle : Nat → AttemptOutcome) (username : String) (now : Int)
    (st : FetchSt) : FetchSt :=
  let st0 :=
    { st with
        metrics :=
          { st.metrics with processed := st.metrics.processed + 1 } }
  let r := fetch_profile max_retries oracle username st0
  match r.1 with
  | some p =>
      let st1 := r.2
      let c := update_profile p now st1.db
      (match c.1 with
       | some _ =>
           { st1 with
               db := c.2
               metrics :=
                 { st1.metrics with
                     success := st1.metrics.success + 1 } }
       | none => { st1 with db := c.2 })
  | none =>
      let st1 := r.2
      { st1 with
          metrics := { st1.metrics with failed := st1.metrics.failed + 1 } }

/-! ## Concurrent claims and FOR UPDATE SKIP LOCKED -/

/-- Ids of rows eligible for the claim subquery, i.e. rows whose
status is the claimed-from status. -/
def eligible_ids (db : Database) (fromStatus : EnrichmentStatus) :
    List Nat :=
  (db.developers.filter
    (fun w => w.enrichment_status = fromStatus)).map (fun w => w.id)

/-- A pair of claim_batch_for_processing step-2 selections running
concurrently against the same table snapshot.  FOR UPDATE SKIP
LOCKED means each call returns exactly rows on which it acquired the
row-level lock, and a row-level lock is held by at most one
transaction at a time: lockOwner records, for each row id, which of
the two transactions (false = first, true = second) holds its lock
at return time.  Each selection is drawn from the rows matching the
claim query. -/
structure SkipLockedPair (db : Database)
    (fromStatus : EnrichmentStatus) where
  sel1 : List Nat
  sel2 : List Nat
  lockOwner : Nat → Option Bool
  locked1 : ∀ i ∈ sel1, lockOwner i = some false
  locked2 : ∀ i ∈ sel2, lockOwner i = some true
  elig1 : ∀ i ∈ sel1, i ∈ eligible_ids db fromStatus
  elig2 : ∀ i ∈ sel2, i ∈ eligible_ids db fromStatus

/-! ## A small regular-expression matcher

The link patterns of _extract_social_links use only literals,
non-capturing optional groups, alternation, greedy one-or-more over a
character class, and one capturing group per pattern.  The matcher
below implements exactly these constructs with Python re semantics:
re.search scans start positions left to right and, at the first
position with a match, follows backtracking priority (alternation
tries the left branch first, an optional group tries the present
branch first, a greedy repetition tries the longest run first). -/

/-- Regex abstract syntax for the patterns used by the scraper.
lit matches a literal case-insensitively (all searches use
re.IGNORECASE); lits matches case-sensitively (re.findall of the
bare URL pattern has no flag); plus is greedy one-or-more over a
character class; group is the single capturing group. -/
inductive Rx where
  | eps
  | lit (s : List Char)
  | lits (s : List Char)
  | seq (a b : Rx)
  | alt (a b : Rx)
  | opt (a : Rx)
  | plus (p : Char → Bool)
  | group (a : Rx)

/-- Case-insensitive literal consumption: the rest of the input after
the literal, when the input starts with it up to ASCII case. -/
def litTakeCI : List Char → List Char → Option (List Char)
  | [], s => some s
  | _ :: _, [] => none
  | c :: cs, d :: ds =>
      if c.toLower = d.toLower then litTakeCI cs ds else none

/-- Case-sensitive literal consumption. -/
def litTakeCS : List Char → List Char → Option (List Char)
  | [], s => some s
  | _ :: _, [] => none
  | c :: cs, d :: ds => if c = d then litTakeCS cs ds else none

/-- Suffixes of s after dropping k, k-1, ..., 1 characters: the
backtracking alternatives of a greedy repetition that consumed a
maximal run of k characters. -/
def dropsDesc (s : List Char) : Nat → List (List Char)
  | 0 => []
  | k + 1 => s.drop (k + 1) :: dropsDesc s k

/-- All ways the pattern can match a prefix of the input, in
backtracking priority order; each result is the captured group (if
the capturing group was traversed) and the remaining input. -/
def rxMatch : Rx → List Char → List (Option (List Char) × List Char)
  | Rx.eps, s => [(none, s)]
  | Rx.lit l, s =>
      match litTakeCI l s with
      | some r => [(none, r)]
      | none => []
  | Rx.lits l, s =>
      match litTakeCS l s with
      | some r => [(none, r)]
      | none => []
  | Rx.seq a b, s =>
      (rxMatch a s).flatMap (fun pr =>
        (rxMatch b pr.2).map (fun qr => (pr.1 <|> qr.1, qr.2)))
  | Rx.alt a b, s => rxMatch a s ++ rxMatch b s
  | Rx.opt a, s => rxMatch a s ++ [(none, s)]
  | Rx.plus p, s => (dropsDesc s (s.takeWhile p).length).map (fun r => (none, r))
  | Rx.group a, s =>
      (rxMatch a s).map (fun pr =>
        (some (s.take (s.length - pr.2.length)), pr.2))

/-- re.search over start positions, returning the capture of the
first match (innermost Option: the pattern may have no group). -/
def searchList (rx : Rx) : List Char → Option (Option (List Char))
  | [] =>
      match rxMatch rx [] with
      | r :: _ => some r.1
      | [] => none
  | c :: t =>
      match rxMatch rx (c :: t) with
      | r :: _ => some r.1
      | [] => searchList rx t

/-- re.search followed by match.group(1), as the scraper uses it (in
every scraper pattern the group is mandatory, so a match always
carries a capture; an uncaptured match is read as the empty
string). -/
def rxSearch (rx : Rx) (s : List Char) : Option String :=
  match searchList rx s with
  | some (some cap) => some (String.mk cap)
  | some none => some ""
  | none => none

/-- re.findall of a groupless pattern: the full text of each
non-overlapping match, scanning left to right and resuming after the
end of each match.  Fuel bounds the recursion by the input length. -/
def findAllAux (rx : Rx) : Nat → List Char → List String
  | 0, _ => []
  | _ + 1, [] => []
  | fuel + 1, c :: t =>
      match rxMatch rx (c :: t) with
      | r :: _ =>
          String.mk ((c :: t).take ((c :: t).length - r.2.length)) ::
            findAllAux rx fuel r.2
      | [] => findAllAux rx fuel t

/-- re.findall entry point. -/
def findAll (rx : Rx) (s : List Char) : List String :=
  findAllAux rx s.length s

/-! ## The link patterns of _extract_social_links -/

/-- ASCII letter. -/
def isAl (c : Char) : Bool :=
  (decide ('a' ≤ c) && decide (c ≤ 'z')) ||
  (decide ('A' ≤ c) && decide (c ≤ 'Z'))

/-- ASCII digit. -/
def isDig (c : Char) : Bool := decide ('0' ≤ c) && decide (c ≤ '9')

/-- Character class a-zA-Z0-9_. -/
def alnumU (c : Char) : Bool := isAl c || isDig c || c = '_'

/-- Character class a-zA-Z0-9 dash. -/
def alnumDash (c : Char) : Bool := isAl c || isDig c || c = '-'

/-- Character class a-zA-Z0-9 dot. -/
def alnumDot (c : Char) : Bool := isAl c || isDig c || c = '.'

/-- Character class a-zA-Z0-9_ dot. -/
def alnumUDot (c : Char) : Bool := alnumU c || c = '.'

/-- Character class a-zA-Z0-9_ dash. -/
def alnumUDash (c : Char) : Bool := alnumU c || c = '-'

/-- The characters excluded by the bare URL pattern of the scraper
(whitespace and a set of URL-breaking punctuation, with the brace,
bracket and backquote characters given by code point). -/
def urlChar (c : Char) : Bool :=
  !(c = ' ' || c = '\t' || c = '\n' || c = '\r' ||
    c = Char.ofNat 11 || c = Char.ofNat 12 ||
    c = '<' || c = '>' || c = '"' || c = Char.ofNat 123 ||
    c = Char.ofNat 125 || c = '|' || c = '\\' || c = '^' ||
    c = Char.ofNat 96 || c = '[' || c = ']')

/-- Optional scheme part of each pattern. -/
def optScheme : Rx :=
  Rx.opt (Rx.seq (Rx.lit "http".toList)
    (Rx.seq (Rx.opt (Rx.lit "s".toList)) (Rx.lit "://".toList)))

/-- Optional www. part. -/
def optWww : Rx := Rx.opt (Rx.lit "www.".toList)

/-- The twitter pattern. -/
def twitter_rx : Rx :=
  Rx.seq optScheme (Rx.seq optWww
    (Rx.seq (Rx.alt (Rx.lit "twitter.com".toList) (Rx.lit "x.com".toList))
      (Rx.seq (Rx.lit "/".toList) (Rx.group (Rx.plus alnumU)))))

/-- The linkedin pattern. -/
def linkedin_rx : Rx :=
  Rx.seq optScheme (Rx.seq optWww
    (Rx.seq (Rx.lit "linkedin.com/in/".toList)
      (Rx.group (Rx.plus alnumDash))))

/-- The facebook pattern. -/
def facebook_rx : Rx :=
  Rx.seq optScheme (Rx.seq optWww
    (Rx.seq (Rx.lit "facebook.com/".toList)
      (Rx.group (Rx.plus alnumDot))))

/-- The instagram pattern. -/
def instagram_rx : Rx :=
  Rx.seq optScheme (Rx.seq optWww
    (Rx.seq (Rx.lit "instagram.com/".toList)
      (Rx.group (Rx.plus alnumUDot))))

/-- The telegram pattern. -/
def telegram_rx : Rx :=
  Rx.seq optScheme
    (Rx.seq (Rx.alt (Rx.lit "t.me".toList) (Rx.lit "telegram.me".toList))
      (Rx.seq (Rx.lit "/".toList) (Rx.group (Rx.plus alnumU))))

/-- The youtube pattern. -/
def youtube_rx : Rx :=
  Rx.seq optScheme (Rx.seq optWww
    (Rx.seq (Rx.lit "youtube.com/".toList)
      (Rx.seq
        (Rx.opt (Rx.alt (Rx.lit "c/".toList)
          (Rx.alt (Rx.lit "channel/".toList) (Rx.lit "@".toList))))
        (Rx.group (Rx.plus alnumUDash)))))

/-- The medium pattern. -/
def medium_rx : Rx :=
  Rx.seq optScheme (Rx.seq optWww
    (Rx.seq (Rx.lit "medium.com/".toList)
      (Rx.seq (Rx.opt (Rx.lit "@".toList))
        (Rx.group (Rx.plus alnumUDash)))))

/-- The dev.to pattern. -/
def dev_to_rx : Rx :=
  Rx.seq optScheme (Rx.seq optWww
    (Rx.seq (Rx.lit "dev.to/".toList)
      (Rx.group (Rx.plus alnumUDash))))

/-- The hashnode pattern (no www. part in the source). -/
def hashnode_rx : Rx :=
  Rx.seq optScheme
    (Rx.seq (Rx.group (Rx.plus alnumUDash))
      (Rx.lit ".hashnode.dev".toList))

/-- The stackoverflow pattern. -/
def stackoverflow_rx : Rx :=
  Rx.seq optScheme (Rx.seq optWww
    (Rx.seq (Rx.lit "stackoverflow.com/users/".toList)
      (Rx.group (Rx.plus isDig))))

/-- The bare URL pattern used for other links (case-sensitive, no
capturing group). -/
def url_rx : Rx :=
  Rx.seq (Rx.lits "http".toList)
    (Rx.seq (Rx.opt (Rx.lits "s".toList))
      (Rx.seq (Rx.lits "://".toList) (Rx.plus urlChar)))

/-! ## _extract_social_links -/

/-- The fields of the PyGithub user object the extractor reads. -/
structure GHUser where
  bio : Option String := none
  blog : Option String := none
  twitter_username : Option String := none
deriving DecidableEq, Repr

/-- Python truthiness of an optional string field: None and the empty
string are falsy. -/
def truthy : Option String → Option String
  | some s => if s = "" then none else some s
  | none => none

/-- One iteration of the pattern loop: keep an already-set platform
entry, otherwise search the pattern and format the capture. -/
def stepPlatform (cur : Option String) (rx : Rx)
    (fmt : String → String) (text : List Char) : Option String :=
  match cur with
  | some u => some u
  | none =>
      match rxSearch rx text with
      | some g => some (fmt g)
      | none => none

/-- The known platform domains excluded from other_links. -/
def known_domains : List String :=
  ["twitter.com", "x.com", "linkedin.com", "facebook.com",
   "instagram.com", "t.me", "telegram.me", "youtube.com",
   "medium.com", "dev.to", "hashnode.dev", "stackoverflow.com"]

/-- Whether the first list is a prefix of the second, by character
equality. -/
def startsWithChars : List Char → List Char → Bool
  | [], _ => true
  | _ :: _, [] => false
  | a :: as, b :: bs => a = b && startsWithChars as bs

/-- Whether the needle occurs as a contiguous substring of the
haystack (the Python `in` test on strings). -/
def containsChars (needle : List Char) : List Char → Bool
  | [] => startsWithChars needle []
  | c :: t => startsWithChars needle (c :: t) || containsChars needle t

/-- Whether a URL mentions one of the known platform domains
(compared against the lowercased URL). -/
def isKnownDomainUrl (url : String) : Bool :=
  known_domains.any (fun d =>
    containsChars d.toList (url.toList.map Char.toLower))

/-- The other_links accumulation of the extractor: every URL found in
the text that mentions no known domain, deduplicated preserving first
occurrence order. -/
def collect_other_links (combined : List Char) : List String :=
  (findAll url_rx combined).foldl (fun acc url =>
    if isKnownDomainUrl url then acc
    else if acc.contains url then acc
    else acc ++ [url]) []

/-- ProfileScraper._extract_social_links: presets twitter from the
dedicated handle field, joins the truthy text fields with a space,
runs the pattern table in dict order (first match wins per platform,
skipping already-set platforms), then collects the leftover URLs. -/
def extract_social_links (user : GHUser) : SocialLinks :=
  let text_to_search :=
    (match truthy user.bio with
     | some b => [b]
     | none => []) ++
    (match truthy user.blog with
     | some b => [b]
     | none => [])
  let twitterPreset :=
    (truthy user.twitter_username).map
      (fun t => "https://twitter.com/" ++ t)
  let combined := (String.intercalate " " text_to_search).toList
  { twitter :=
      stepPlatform twitterPreset twitter_rx
        (fun g => "https://twitter.com/" ++ g) combined
    linkedin :=
      stepPlatform none linkedin_rx
        (fun g => "https://linkedin.com/in/" ++ g) combined
    facebook :=
      stepPlatform none facebook_rx
        (fun g => "https://facebook.com/" ++ g) combined
    instagram :=
      stepPlatform none instagram_rx
        (fun g => "https://instagram.com/" ++ g) combined
    telegram :=
      stepPlatform none telegram_rx
        (fun g => "https://t.me/" ++ g) combined
    youtube :=
      stepPlatform none youtube_rx
        (fun g => "https://youtube.com/@" ++ g) combined
    medium :=
      stepPlatform none medium_rx
        (fun g => "https://medium.com/@" ++ g) combined
    dev_to :=
      stepPlatform none dev_to_rx
        (fun g => "https://dev.to/" ++ g) combined
    hashnode :=
      stepPlatform none hashnode_rx
        (fun g => "https://" ++ g ++ ".hashnode.dev") combined
    stackoverflow :=
      stepPlatform none stackoverflow_rx
        (fun g => "https://stackoverflow.com/users/" ++ g) combined
    other_links := collect_other_links combined }

/-! ## Concrete data used by the witness theorems -/

/-- A fresh row as discovery inserts it. -/
def wAlice : WorkItem := { id := 1, username := "alice" }

/-- A second fresh row. -/
def wBob : WorkItem := { id := 2, username := "bob" }

/-- A two-row table of INITIAL items. -/
def dbTwo : Database := { developers := [wAlice, wBob], next_id := 3 }

/-- A row claimed 2 staleTimeouts ago (staleTimeout 30, now 100). -/
def wCarol : WorkItem :=
  { id := 1, username := "carol", enrichment_status := PROCESSING,
    claimed_by := some "w1", processing_started_at := some 40 }

/-- A row claimed half a staleTimeout ago. -/
def wDave : WorkItem :=
  { id := 2, username := "dave", enrichment_status := PROCESSING,
    claimed_by := some "w2", processing_started_at := some 85 }

/-- A table with one stale and one fresh claim. -/
def dbStale : Database := { developers := [wCarol, wDave], next_id := 3 }

/-- A row with a positive retry count. -/
def wAliceRetry : WorkItem :=
  { id := 1, username := "alice", retry_count := 2 }

/-- A one-row table for the retry-count witness. -/
def dbRetry : Database := { developers := [wAliceRetry], next_id := 2 }

/-- A profile payload for the commit witness. -/
def pAlice : Profile :=
  { username := "alice", name := some "Alice",
    social_links := { linkedin := some "https://linkedin.com/in/alice" },
    top_repos := [{ name := "repo1", stars := 3 }] }

/-- A profile payload with no social links and no repositories. -/
def pNoLinks : Profile := { username := "alice" }

/-- A table where alice already has a social_links child row from an
earlier commit. -/
def dbChild : Database :=
  { developers := [wAlice]
    social_links :=
      [{ developer_id := 1, platform := "twitter",
         url := "https://twitter.com/old" }]
    next_id := 2 }

/-- A child-row insertion step that always raises (the simulated
store fault of the atomicity test). -/
def faultBoom : Nat → Database → Except String Database :=
  fun _ _ => Except.error "boom"

/-- An API that is rate-limited on every call. -/
def oracleRL : Nat → AttemptOutcome := fun _ => AttemptOutcome.rateLimited

/-- An API rate-limited on the first three calls and successful on
the fourth (MAX_RETRIES is 3 in the shipped configuration). -/
def oracleC5 : Nat → AttemptOutcome :=
  fun n => if n < 3 then AttemptOutcome.rateLimited
           else AttemptOutcome.ok pAlice

/-- An API raising a not-found error (a permanent upstream error,
surfaced by the client as a plain exception) on every call. -/
def oracle404 : Nat → AttemptOutcome :=
  fun _ => AttemptOutcome.err "404 user not found"

/-- A claimed PROCESSING row being worked on. -/
def wGhost : WorkItem :=
  { id := 1, username := "ghost", enrichment_status := PROCESSING,
    claimed_by := some "w1", processing_started_at := some 0 }

/-- The table holding the claimed row. -/
def dbGhost : Database := { developers := [wGhost], next_id := 2 }

/-- The execution state at the start of processing the claimed
row. -/
def stGhost : FetchSt := { db := dbGhost }

/-- The empty execution state. -/
def stEmpty : FetchSt := { db := {} }

/-- A concrete pair of concurrent SKIP LOCKED selections over dbTwo:
the first transaction locked and selected row 1, the second row 2. -/
def skwPair : SkipLockedPair dbTwo INITIAL :=
  { sel1 := [1]
    sel2 := [2]
    lockOwner := fun i =>
      if i = 1 then some false else if i = 2 then some true else none
    locked1 := by decide
    locked2 := by decide
    elig1 := by decide
    elig2 := by decide }

/-! ## Helper lemmas -/

/-- find? by username commutes with mapping a username-preserving
row transformer over the table. -/
theorem find?_username_map (u : String) (f : WorkItem → WorkItem)
    (hf : ∀ w, (f w).username = w.username) :
    ∀ l : List WorkItem,
      (l.map f).find? (fun w => w.username = u) =
        ((l.find? (fun w => w.username = u)).map f)
  | [] => rfl
  | a :: t => by
      by_cases h : a.username = u
      · rw [List.map_cons,
          List.find?_cons_of_pos _ (by simpa [hf a] using h),
          List.find?_cons_of_pos _ (by simpa using h)]
        rfl
      · rw [List.map_cons,
          List.find?_cons_of_neg _ (by simpa [hf a] using h),
          List.find?_cons_of_neg _ (by simpa using h)]
        exact find?_username_map u f hf t

/-- A found row keeps being found after appending rows. -/
theorem find?_append_some {l l2 : List WorkItem}
    {p : WorkItem → Bool} {w : WorkItem} (h : l.find? p = some w) :
    (l ++ l2).find? p = some w := by
  induction l with
  | nil => simp [List.find?] at h
  | cons a t ih =>
      by_cases hp : p a
      · rw [List.find?_cons_of_pos _ hp] at h
        rw [List.cons_append, List.find?_cons_of_pos _ hp]
        exact h
      · rw [List.find?_cons_of_neg _ (by simpa using hp)] at h
        rw [List.cons_append, List.find?_cons_of_neg _ (by simpa using hp)]
        exact ih h

/-- The row found by findUser carries the looked-up username. -/
theorem findUser_username {db : Database} {u : String} {w : WorkItem}
    (h : findUser db u = some w) : w.username = u := by
  have := List.find?_some h
  simpa using this

/-- insert_one does not disturb an existing row lookup. -/
theorem insert_one_find {db : Database} {u v : String} {w : WorkItem}
    (h : findUser db u = some w) :
    findUser (insert_one db v).1 u = some w := by
  unfold insert_one
  by_cases hv : db.developers.any (fun r => r.username = v)
  · simpa [hv, findUser] using h
  · simp only [hv]
    exact find?_append_some h

/-- insert_fold does not disturb an existing row lookup. -/
theorem insert_fold_find {u : String} {w : WorkItem} :
    ∀ (us : List String) (db : Database) (last : Int),
      findUser db u = some w →
      findUser (insert_fold db last us).1 u = some w
  | [], _, _, h => h
  | v :: us, db, _, h =>
      insert_fold_find us (insert_one db v).1 _ (insert_one_find h)

/-- A username-preserving map, through findUser. -/
theorem findUser_map (db : Database) (u : String)
    (f : WorkItem → WorkItem) (hf : ∀ w, (f w).username = w.username) :
    findUser { db with developers := db.developers.map f } u =
      (findUser db u).map f :=
  find?_username_map u f hf db.developers

/-- upsert_social_link leaves the developers table alone. -/
theorem upsert_social_link_developers (db : Database)
    (row : SocialLinkRow) :
    (upsert_social_link db row).developers = db.developers := by
  unfold upsert_social_link
  split <;> rfl

/-- insert_social_links leaves the developers table alone. -/
theorem insert_social_links_developers (developer_id : Nat)
    (s : SocialLinks) (db : Database) :
    (insert_social_links developer_id s db).developers =
      db.developers := by
  unfold insert_social_links
  generalize socialLinkTriples developer_id s = rows
  induction rows generalizing db with
  | nil => rfl
  | cons r rs ih =>
      rw [List.foldl_cons, ih, upsert_social_link_developers]

/-- upsert_repository leaves the developers table alone. -/
theorem upsert_repository_developers (db : Database)
    (row : RepositoryRow) :
    (upsert_repository db row).developers = db.developers := by
  unfold upsert_repository
  split <;> rfl

/-- insert_repositories leaves the developers table alone. -/
theorem insert_repositories_developers (developer_id : Nat)
    (repos : List RepoInfo) (db : Database) :
    (insert_repositories developer_id repos db).developers =
      db.developers := by
  unfold insert_repositories
  generalize repositoryRows developer_id repos = rows
  induction rows generalizing db with
  | nil => rfl
  | cons r rs ih =>
      rw [List.foldl_cons, ih, upsert_repository_developers]

/-- findUser only looks at the developers table. -/
theorem findUser_developers_eq {db db2 : Database}
    (h : db2.developers = db.developers) (u : String) :
    findUser db2 u = findUser db u := by
  unfold findUser
  rw [h]

/-- A failing transaction body leaves the store exactly as it was
(the rollback of get_cursor). -/
theorem get_cursor_rollback {α : Type} (db : Database)
    (body : Database → Except String (α × Database)) (e : String)
    (db2 : Database) (h : get_cursor db body = (Except.error e, db2)) :
    db2 = db := by
  unfold get_cursor at h
  match hb : body db with
  | Except.ok pr => rw [hb] at h; simp at h
  | Except.error e2 => rw [hb] at h; simp at h; exact h.2.symm

/-- Closed form of update_profile: not-found leaves the store
untouched; on a found row the developers row is rewritten and the
child rows are upserted, all in the committed state. -/
theorem update_profile_eq (p : Profile) (now : Int) (db : Database) :
    update_profile p now db =
      match findUser db p.username with
      | none => (none, db)
      | some w =>
          (some w.id,
           insert_repositories w.id p.top_repos
             (insert_social_links w.id p.social_links
               { db with
                   developers := db.developers.map (fun r =>
                     if r.username = p.username then profiledRow p now r
                     else r) })) := by
  unfold update_profile update_profile_tx get_cursor
    update_developers_row realInsertChildren
  cases h : findUser db p.username <;> simp [h]

/-- The stale-release step through a row lookup: the looked-up row is
reset exactly when it is stale. -/
theorem release_stale_find (fromStatus : EnrichmentStatus)
    (timeoutMinutes now : Int) (db : Database) (u : String)
    (w : WorkItem) (h : findUser db u = some w) :
    findUser (release_stale_claims fromStatus timeoutMinutes now db).1 u =
      some (if isStale now timeoutMinutes w then
              { w with
                  enrichment_status := fromStatus
                  claimed_by := none
                  processing_started_at := none }
            else w) := by
  have hf : ∀ v : WorkItem,
      ((fun v => if isStale now timeoutMinutes v then
          { v with
              enrichment_status := fromStatus
              claimed_by := none
              processing_started_at := none }
        else v) v).username = v.username := by
    intro v
    dsimp only
    split <;> rfl
  unfold release_stale_claims
  dsimp only
  rw [findUser_map db u _ hf, h]
  rfl

/-- One rate-limited attempt of fetch_profile: rotate, cool down,
bump the rate_limit and retries metrics, and continue with one fewer
attempt left in the for loop. -/
theorem fetchAux_rate_limited_step (oracle : Nat → AttemptOutcome)
    (u : String) (n : Nat) (st : FetchSt)
    (h : oracle st.calls = AttemptOutcome.rateLimited) :
    fetchAux oracle u (n + 1) st =
      fetchAux oracle u n
        { st with
            calls := st.calls + 1
            cooldowns := st.cooldowns + 1
            metrics :=
              { st.metrics with
                  rate_limit := st.metrics.rate_limit + 1
                  retries := st.metrics.retries + 1 } } := by
  conv_lhs => rw [fetchAux]
  rw [h]

/-- A fetch whose every attempt is rate-limited returns no profile,
never writes to the store, and leaves the failure/success metrics
untouched. -/
theorem fetch_all_rate_limited (oracle : Nat → AttemptOutcome)
    (h : ∀ k, oracle k = AttemptOutcome.rateLimited) (u : String) :
    ∀ (n : Nat) (st : FetchSt),
      (fetch_profile n oracle u st).1 = none ∧
      (fetch_profile n oracle u st).2.db = st.db ∧
      (fetch_profile n oracle u st).2.metrics.failed =
        st.metrics.failed ∧
      (fetch_profile n oracle u st).2.metrics.success =
        st.metrics.success
  | 0, st => ⟨rfl, rfl, rfl, rfl⟩
  | n + 1, st => by
      have hstep := fetchAux_rate_limited_step oracle u n st (h st.calls)
      unfold fetch_profile
      rw [hstep]
      exact fetch_all_rate_limited oracle h u n _

/-- insert_one preserves the claim-field invariant. -/
theorem insert_one_inv {db : Database} (h : ClaimInvariant db)
    (u : String) : ClaimInvariant (insert_one db u).1 := by
  unfold insert_one
  split
  · exact h
  · intro w hw
    rcases List.mem_append.mp hw with h1 | h2
    · exact h w h1
    · simp only [List.mem_singleton] at h2
      subst h2
      exact ⟨rfl, rfl⟩

/-- insert_fold preserves the claim-field invariant. -/
theorem insert_fold_inv :
    ∀ (us : List String) (db : Database) (last : Int),
      ClaimInvariant db → ClaimInvariant (insert_fold db last us).1
  | [], _, _, h => h
  | u :: us, db, _, h =>
      insert_fold_inv us (insert_one db u).1 _ (insert_one_inv h u)

/-- The stale-release step preserves the claim-field invariant when
the release target status is not PROCESSING. -/
theorem release_stale_inv {db : Database}
    {fromStatus : EnrichmentStatus} (hfs : fromStatus ≠ PROCESSING)
    (timeoutMinutes now : Int) (h : ClaimInvariant db) :
    ClaimInvariant (release_stale_claims fromStatus timeoutMinutes now db).1 := by
  intro w hw
  unfold release_stale_claims at hw
  dsimp only at hw
  rcases List.mem_map.mp hw with ⟨v, hv, rfl⟩
  by_cases hs : isStale now timeoutMinutes v
  · simp only [hs, if_true]
    exact ⟨by simp [hfs], by simp [hfs]⟩
  · simp only [hs, Bool.false_eq_true, if_false]
    exact h v hv

/-- The claim step preserves the claim-field invariant. -/
theorem mark_claimed_inv {db : Database} (instance_id : String)
    (now : Int) (ids : List Nat) (h : ClaimInvariant db) :
    ClaimInvariant (mark_claimed instance_id now ids db) := by
  intro w hw
  unfold mark_claimed at hw
  dsimp only at hw
  rcases List.mem_map.mp hw with ⟨v, hv, rfl⟩
  by_cases hin : v.id ∈ ids
  · simp only [hin, if_true]
    exact ⟨rfl, rfl⟩
  · simp only [hin, if_false]
    exact h v hv

/-- update_profile preserves the claim-field invariant. -/
theorem update_profile_inv {db : Database} (p : Profile) (now : Int)
    (h : ClaimInvariant db) :
    ClaimInvariant (update_profile p now db).2 := by
  rw [update_profile_eq]
  cases hw : findUser db p.username with
  | none => exact h
  | some w =>
      intro v hv
      rw [insert_repositories_developers,
        insert_social_links_developers] at hv
      dsimp only at hv
      rcases List.mem_map.mp hv with ⟨r, hr, rfl⟩
      by_cases hu : r.username = p.username
      · simp only [hu, if_true]
        exact ⟨rfl, rfl⟩
      · simp only [hu, if_false]
        exact h r hr

/-- mark_as_failed preserves the claim-field invariant. -/
theorem mark_as_failed_inv {db : Database} (u e : String)
    (h : ClaimInvariant db) : ClaimInvariant (mark_as_failed u e db) := by
  intro w hw
  unfold mark_as_failed at hw
  dsimp only at hw
  rcases List.mem_map.mp hw with ⟨v, hv, rfl⟩
  by_cases hu : v.username = u
  · simp only [hu, if_true]
    exact ⟨rfl, rfl⟩
  · simp only [hu, if_false]
    exact h v hv

/-- increment_retry_count preserves the claim-field invariant when
the return status is not PROCESSING. -/
theorem increment_retry_inv {db : Database} (u e : String)
    {back_to_status : EnrichmentStatus}
    (hbs : back_to_status ≠ PROCESSING) (h : ClaimInvariant db) :
    ClaimInvariant (increment_retry_count u e back_to_status db).2 := by
  intro w hw
  unfold increment_retry_count at hw
  dsimp only at hw
  rcases List.mem_map.mp hw with ⟨v, hv, rfl⟩
  by_cases hu : v.username = u
  · simp only [hu, if_true]
    exact ⟨by simp [hbs], by simp [hbs]⟩
  · simp only [hu, if_false]
    exact h v hv

/-- The child-row upserts of a commit do not affect row lookups. -/
theorem findUser_children (developer_id : Nat) (s : SocialLinks)
    (repos : List RepoInfo) (db : Database) (u : String) :
    findUser
        (insert_repositories developer_id repos
          (insert_social_links developer_id s db)) u =
      findUser db u := by
  unfold findUser
  rw [insert_repositories_developers, insert_social_links_developers]

/-- find? at the upsert key through the updating map of
upsert_social_link. -/
theorem find?_slmap (row : SocialLinkRow) :
    ∀ l : List SocialLinkRow,
      (l.map (fun r =>
          if r.developer_id = row.developer_id &&
              r.platform = row.platform then
            { r with url := row.url }
          else r)).find? (fun r =>
          r.developer_id = row.developer_id &&
            r.platform = row.platform) =
        (l.find? (fun r =>
            r.developer_id = row.developer_id &&
              r.platform = row.platform)).map
          (fun r => { r with url := row.url })
  | [] => rfl
  | a :: t => by
      by_cases ha : (a.developer_id = row.developer_id &&
          a.platform = row.platform) = true
      · rw [List.map_cons, if_pos ha,
          List.find?_cons_of_pos _ (by exact ha),
          List.find?_cons_of_pos _ (by exact ha)]
        rfl
      · rw [List.map_cons, if_neg ha,
          List.find?_cons_of_neg _ (by exact ha), List.find?_cons_of_neg _ (by exact ha)]
        exact find?_slmap row t

/-- find? at a different key through the updating map of
upsert_social_link. -/
theorem find?_slmap_other (row : SocialLinkRow) (d : Nat)
    (pl : String) (h : ¬(row.developer_id = d ∧ row.platform = pl)) :
    ∀ l : List SocialLinkRow,
      (l.map (fun r =>
          if r.developer_id = row.developer_id &&
              r.platform = row.platform then
            { r with url := row.url }
          else r)).find? (fun r =>
          r.developer_id = d && r.platform = pl) =
        l.find? (fun r => r.developer_id = d && r.platform = pl)
  | [] => rfl
  | a :: t => by
      by_cases ha : (a.developer_id = row.developer_id &&
          a.platform = row.platform) = true
      · have ha2 := ha
        simp only [Bool.and_eq_true, decide_eq_true_eq] at ha2
        have hka : ¬((a.developer_id = d && a.platform = pl) = true) := by
          simp only [Bool.and_eq_true, decide_eq_true_eq]
          rintro ⟨h1, h2⟩
          exact h ⟨ha2.1.symm.trans h1, ha2.2.symm.trans h2⟩
        rw [List.map_cons, if_pos ha,
          List.find?_cons_of_neg _ (by exact hka),
          List.find?_cons_of_neg _ (by exact hka)]
        exact find?_slmap_other row d pl h t
      · rw [List.map_cons, if_neg ha]
        by_cases hk : (a.developer_id = d && a.platform = pl) = true
        · rw [List.find?_cons_of_pos _ (by exact hk), List.find?_cons_of_pos _ (by exact hk)]
        · rw [List.find?_cons_of_neg _ (by exact hk), List.find?_cons_of_neg _ (by exact hk)]
          exact find?_slmap_other row d pl h t

/-- After upserting a social_links row, lookup at its key returns
exactly the upserted content (inserted when the key was absent,
overwritten when present). -/
theorem upsert_social_link_found (db : Database)
    (row : SocialLinkRow) :
    findSocialLink (upsert_social_link db row) row.developer_id
      row.platform = some row := by
  unfold upsert_social_link findSocialLink
  by_cases hany : db.social_links.any (fun r =>
      r.developer_id = row.developer_id && r.platform = row.platform)
  · rw [if_pos hany]
    dsimp only
    rw [find?_slmap row db.social_links]
    obtain ⟨r0, hr0⟩ := Option.isSome_iff_exists.mp
      (by rw [List.find?_isSome]; exact List.any_eq_true.mp hany)
    rw [hr0]
    have hk := List.find?_some hr0
    simp only [Bool.and_eq_true, decide_eq_true_eq] at hk
    cases row
    cases r0
    simp_all
  · rw [if_neg hany]
    dsimp only
    rw [List.find?_append]
    have hnone : db.social_links.find? (fun r =>
        r.developer_id = row.developer_id &&
          r.platform = row.platform) = none := by
      rw [← Option.not_isSome_iff_eq_none, List.find?_isSome]
      exact fun hx => hany (List.any_eq_true.mpr hx)
    rw [hnone, List.find?_cons_of_pos _ (by simp)]
    rfl

/-- Upserting a social_links row leaves lookups at other keys
unchanged. -/
theorem upsert_social_link_other (db : Database)
    (row : SocialLinkRow) (d : Nat) (pl : String)
    (h : ¬(row.developer_id = d ∧ row.platform = pl)) :
    findSocialLink (upsert_social_link db row) d pl =
      findSocialLink db d pl := by
  unfold upsert_social_link findSocialLink
  by_cases hany : db.social_links.any (fun r =>
      r.developer_id = row.developer_id && r.platform = row.platform)
  · rw [if_pos hany]
    exact find?_slmap_other row d pl h db.social_links
  · rw [if_neg hany]
    dsimp only
    rw [List.find?_append,
      List.find?_cons_of_neg _
        (by simp only [Bool.and_eq_true, decide_eq_true_eq]; exact h),
      List.find?_nil]
    exact Option.or_none

/-- A block of social_links upserts at keys other than the looked-up
one leaves the lookup unchanged. -/
theorem foldl_upsert_sl_preserve :
    ∀ (rows : List SocialLinkRow) (db : Database) (d : Nat)
      (pl : String),
      (∀ b ∈ rows, ¬(b.developer_id = d ∧ b.platform = pl)) →
      findSocialLink (rows.foldl upsert_social_link db) d pl =
        findSocialLink db d pl
  | [], _, _, _, _ => rfl
  | t :: ts, db, d, pl, h => by
      rw [List.foldl_cons,
        foldl_upsert_sl_preserve ts _ d pl
          (fun b hb => h b (List.mem_cons_of_mem t hb))]
      exact upsert_social_link_other db t d pl
        (h t (List.mem_cons_self t ts))

/-- After a block of social_links upserts with pairwise-distinct
keys, every upserted row is found at its key with its content. -/
theorem foldl_upsert_sl_lookup :
    ∀ (rows : List SocialLinkRow) (db : Database),
      rows.Pairwise (fun a b =>
        ¬(a.developer_id = b.developer_id ∧
            a.platform = b.platform)) →
      ∀ row ∈ rows,
        findSocialLink (rows.foldl upsert_social_link db)
          row.developer_id row.platform = some row
  | [], _, _, row, hrow => absurd hrow (List.not_mem_nil row)
  | t :: ts, db, hp, row, hrow => by
      rw [List.foldl_cons]
      rcases List.mem_cons.mp hrow with rfl | hmem
      · have hother : ∀ b ∈ ts,
            ¬(b.developer_id = row.developer_id ∧
                b.platform = row.platform) :=
          fun b hb hc =>
            (List.pairwise_cons.mp hp).1 b hb ⟨hc.1.symm, hc.2.symm⟩
        rw [foldl_upsert_sl_preserve ts _ _ _ hother]
        exact upsert_social_link_found db row
      · exact foldl_upsert_sl_lookup ts _
          (List.pairwise_cons.mp hp).2 row hmem

/-- _insert_social_links through a keyed lookup. -/
theorem insert_social_links_lookup (developer_id : Nat)
    (s : SocialLinks) (db : Database)
    (hdist : (socialLinkTriples developer_id s).Pairwise (fun a b =>
      ¬(a.developer_id = b.developer_id ∧ a.platform = b.platform))) :
    ∀ row ∈ socialLinkTriples developer_id s,
      findSocialLink (insert_social_links developer_id s db)
        row.developer_id row.platform = some row :=
  foldl_upsert_sl_lookup _ db hdist

/-- find? at the upsert key through the updating map of
upsert_repository. -/
theorem find?_repmap (row : RepositoryRow) :
    ∀ l : List RepositoryRow,
      (l.map (fun r =>
          if r.developer_id = row.developer_id &&
              r.name = row.name then
            { r with
                stars := row.stars
                language := row.language
                url := row.url
                description := row.description
                repo_order := row.repo_order }
          else r)).find? (fun r =>
          r.developer_id = row.developer_id && r.name = row.name) =
        (l.find? (fun r =>
            r.developer_id = row.developer_id &&
              r.name = row.name)).map
          (fun r => { r with
              stars := row.stars
              language := row.language
              url := row.url
              description := row.description
              repo_order := row.repo_order })
  | [] => rfl
  | a :: t => by
      by_cases ha : (a.developer_id = row.developer_id &&
          a.name = row.name) = true
      · rw [List.map_cons, if_pos ha,
          List.find?_cons_of_pos _ (by exact ha),
          List.find?_cons_of_pos _ (by exact ha)]
        rfl
      · rw [List.map_cons, if_neg ha,
          List.find?_cons_of_neg _ (by exact ha), List.find?_cons_of_neg _ (by exact ha)]
        exact find?_repmap row t

/-- find? at a different key through the updating map of
upsert_repository. -/
theorem find?_repmap_other (row : RepositoryRow) (d : Nat)
    (nm : String) (h : ¬(row.developer_id = d ∧ row.name = nm)) :
    ∀ l : List RepositoryRow,
      (l.map (fun r =>
          if r.developer_id = row.developer_id &&
              r.name = row.name then
            { r with
                stars := row.stars
                language := row.language
                url := row.url
                description := row.description
                repo_order := row.repo_order }
          else r)).find? (fun r =>
          r.developer_id = d && r.name = nm) =
        l.find? (fun r => r.developer_id = d && r.name = nm)
  | [] => rfl
  | a :: t => by
      by_cases ha : (a.developer_id = row.developer_id &&
          a.name = row.name) = true
      · have ha2 := ha
        simp only [Bool.and_eq_true, decide_eq_true_eq] at ha2
        have hka : ¬((a.developer_id = d && a.name = nm) = true) := by
          simp only [Bool.and_eq_true, decide_eq_true_eq]
          rintro ⟨h1, h2⟩
          exact h ⟨ha2.1.symm.trans h1, ha2.2.symm.trans h2⟩
        rw [List.map_cons, if_pos ha,
          List.find?_cons_of_neg _ (by exact hka),
          List.find?_cons_of_neg _ (by exact hka)]
        exact find?_repmap_other row d nm h t
      · rw [List.map_cons, if_neg ha]
        by_cases hk : (a.developer_id = d && a.name = nm) = true
        · rw [List.find?_cons_of_pos _ (by exact hk), List.find?_cons_of_pos _ (by exact hk)]
        · rw [List.find?_cons_of_neg _ (by exact hk), List.find?_cons_of_neg _ (by exact hk)]
          exact find?_repmap_other row d nm h t

/-- After upserting a repositories row, lookup at its key returns
exactly the upserted content. -/
theorem upsert_repository_found (db : Database)
    (row : RepositoryRow) :
    findRepository (upsert_repository db row) row.developer_id
      row.name = some row := by
  unfold upsert_repository findRepository
  by_cases hany : db.repositories.any (fun r =>
      r.developer_id = row.developer_id && r.name = row.name)
  · rw [if_pos hany]
    dsimp only
    rw [find?_repmap row db.repositories]
    obtain ⟨r0, hr0⟩ := Option.isSome_iff_exists.mp
      (by rw [List.find?_isSome]; exact List.any_eq_true.mp hany)
    rw [hr0]
    have hk := List.find?_some hr0
    simp only [Bool.and_eq_true, decide_eq_true_eq] at hk
    cases row
    cases r0
    simp_all
  · rw [if_neg hany]
    dsimp only
    rw [List.find?_append]
    have hnone : db.repositories.find? (fun r =>
        r.developer_id = row.developer_id && r.name = row.name) =
        none := by
      rw [← Option.not_isSome_iff_eq_none, List.find?_isSome]
      exact fun hx => hany (List.any_eq_true.mpr hx)
    rw [hnone, List.find?_cons_of_pos _ (by simp)]
    rfl

/-- Upserting a repositories row leaves lookups at other keys
unchanged. -/
theorem upsert_repository_other (db : Database)
    (row : RepositoryRow) (d : Nat) (nm : String)
    (h : ¬(row.developer_id = d ∧ row.name = nm)) :
    findRepository (upsert_repository db row) d nm =
      findRepository db d nm := by
  unfold upsert_repository findRepository
  by_cases hany : db.repositories.any (fun r =>
      r.developer_id = row.developer_id && r.name = row.name)
  · rw [if_pos hany]
    exact find?_repmap_other row d nm h db.repositories
  · rw [if_neg hany]
    dsimp only
    rw [List.find?_append,
      List.find?_cons_of_neg _
        (by simp only [Bool.and_eq_true, decide_eq_true_eq]; exact h),
      List.find?_nil]
    exact Option.or_none

/-- A block of repositories upserts at keys other than the looked-up
one leaves the lookup unchanged. -/
theorem foldl_upsert_rp_preserve :
    ∀ (rows : List RepositoryRow) (db : Database) (d : Nat)
      (nm : String),
      (∀ b ∈ rows, ¬(b.developer_id = d ∧ b.name = nm)) →
      findRepository (rows.foldl upsert_repository db) d nm =
        findRepository db d nm
  | [], _, _, _, _ => rfl
  | t :: ts, db, d, nm, h => by
      rw [List.foldl_cons,
        foldl_upsert_rp_preserve ts _ d nm
          (fun b hb => h b (List.mem_cons_of_mem t hb))]
      exact upsert_repository_other db t d nm
        (h t (List.mem_cons_self t ts))

/-- After a block of repositories upserts with pairwise-distinct
keys, every upserted row is found at its key with its content. -/
theorem foldl_upsert_rp_lookup :
    ∀ (rows : List RepositoryRow) (db : Database),
      rows.Pairwise (fun a b =>
        ¬(a.developer_id = b.developer_id ∧ a.name = b.name)) →
      ∀ row ∈ rows,
        findRepository (rows.foldl upsert_repository db)
          row.developer_id row.name = some row
  | [], _, _, row, hrow => absurd hrow (List.not_mem_nil row)
  | t :: ts, db, hp, row, hrow => by
      rw [List.foldl_cons]
      rcases List.mem_cons.mp hrow with rfl | hmem
      · have hother : ∀ b ∈ ts,
            ¬(b.developer_id = row.developer_id ∧
                b.name = row.name) :=
          fun b hb hc =>
            (List.pairwise_cons.mp hp).1 b hb ⟨hc.1.symm, hc.2.symm⟩
        rw [foldl_upsert_rp_preserve ts _ _ _ hother]
        exact upsert_repository_found db row
      · exact foldl_upsert_rp_lookup ts _
          (List.pairwise_cons.mp hp).2 row hmem

/-- _insert_repositories through a keyed lookup. -/
theorem insert_repositories_lookup (developer_id : Nat)
    (repos : List RepoInfo) (db : Database)
    (hdist : (repositoryRows developer_id repos).Pairwise (fun a b =>
      ¬(a.developer_id = b.developer_id ∧ a.name = b.name))) :
    ∀ row ∈ repositoryRows developer_id repos,
      findRepository (insert_repositories developer_id repos db)
        row.developer_id row.name = some row :=
  foldl_upsert_rp_lookup _ db hdist

/-- upsert_repository leaves the social_links table alone. -/
theorem upsert_repository_social_links (db : Database)
    (row : RepositoryRow) :
    (upsert_repository db row).social_links = db.social_links := by
  unfold upsert_repository
  split <;> rfl

/-- insert_repositories leaves the social_links table alone. -/
theorem insert_repositories_social_links (developer_id : Nat)
    (repos : List RepoInfo) (db : Database) :
    (insert_repositories developer_id repos db).social_links =
      db.social_links := by
  unfold insert_repositories
  generalize repositoryRows developer_id repos = rows
  induction rows generalizing db with
  | nil => rfl
  | cons r rs ih =>
      rw [List.foldl_cons, ih, upsert_repository_social_links]

/-- Social-link lookups see through the repositories step of a
commit. -/
theorem findSocialLink_insert_repositories (developer_id : Nat)
    (repos : List RepoInfo) (db : Database) (d : Nat) (pl : String) :
    findSocialLink (insert_repositories developer_id repos db) d pl =
      findSocialLink db d pl := by
  unfold findSocialLink
  rw [insert_repositories_social_links]

/-- Lookup through a conditional row update: the looked-up row is
transformed exactly when it satisfies the condition. -/
theorem findUser_map_if {db : Database} {u : String} {w : WorkItem}
    (h : findUser db u = some w) (c : WorkItem → Prop) [DecidablePred c]
    (g : WorkItem → WorkItem) (hg : ∀ v, (g v).username = v.username) :
    findUser
      { db with developers := db.developers.map (fun v =>
          if c v then g v else v) } u =
      some (if c w then g w else w) := by
  have hf : ∀ v : WorkItem,
      ((fun v => if c v then g v else v) v).username = v.username := by
    intro v
    dsimp only
    split
    · exact hg v
    · rfl
  rw [findUser_map db u _ hf, h]
  rfl

/-! ## Claim theorems -/

/-- C1: two concurrent claimBatch calls with the same fromStatus
return disjoint identifier sets (each call returns only rows it
holds the row-level lock on, and a lock has at most one holder),
and in the state where both claim updates are applied every row
selected by the first worker is held by the first worker and every
row selected by the second is held by the second, so no two workers
ever hold the same WorkItem in status PROCESSING. -/
theorem claim_batch_disjoint (db : Database)
    (fromStatus : EnrichmentStatus)
    (pr : SkipLockedPair db fromStatus) (inst1 inst2 : String)
    (now1 now2 : Int) :
    (∀ i ∈ pr.sel1, i ∉ pr.sel2) ∧
    (∀ w ∈ (mark_claimed inst2 now2 pr.sel2
              (mark_claimed inst1 now1 pr.sel1 db)).developers,
        (w.id ∈ pr.sel1 →
          w.claimed_by = some inst1 ∧
          w.enrichment_status = PROCESSING) ∧
        (w.id ∈ pr.sel2 →
          w.claimed_by = some inst2 ∧
          w.enrichment_status = PROCESSING)) := by
  have hdisj : ∀ i ∈ pr.sel1, i ∉ pr.sel2 := by
    intro i h1 h2
    have ha := pr.locked1 i h1
    have hb := pr.locked2 i h2
    rw [ha] at hb
    simp at hb
  refine ⟨hdisj, ?_⟩
  intro w hw
  unfold mark_claimed at hw
  dsimp only at hw
  rcases List.mem_map.mp hw with ⟨v1, hv1, rfl⟩
  rcases List.mem_map.mp hv1 with ⟨v, _, rfl⟩
  by_cases h1 : v.id ∈ pr.sel1
  · have h2 : v.id ∉ pr.sel2 := hdisj v.id h1
    simp [h1, h2]
  · by_cases h2 : v.id ∈ pr.sel2
    · simp [h1, h2]
    · simp [h1, h2]

/-- Witness for C1 at a concrete table and lock assignment. -/
theorem claim_batch_disjoint_witness : (1 : Nat) ∉ skwPair.sel2 :=
  (claim_batch_disjoint dbTwo INITIAL skwPair "w1" "w2" 9 9).1 1
    (by decide)

/-- C2: a PROCESSING item whose claimed_at is older than
now - staleTimeout is reset by the stale-release step that opens the
next claimBatch call (status back to fromStatus, claim_owner and
claimed_at cleared, hence claimable again), while an item claimed
more recently is left untouched; claimBatch is exactly the claim
step run on the stale-released table. -/
theorem stale_claims_recovered (db : Database) (u : String)
    (w : WorkItem) (fromStatus : EnrichmentStatus) (lim : Nat)
    (inst : String) (timeoutMinutes now t : Int)
    (h : findUser db u = some w)
    (hs : w.enrichment_status = PROCESSING)
    (ht : w.processing_started_at = some t) :
    (claim_batch_for_processing fromStatus lim inst timeoutMinutes
        now db =
      claim_step fromStatus lim inst now
        (release_stale_claims fromStatus timeoutMinutes now db).1) ∧
    (t < now - timeoutMinutes →
      findUser
          (release_stale_claims fromStatus timeoutMinutes now db).1 u =
        some { w with
                 enrichment_status := fromStatus
                 claimed_by := none
                 processing_started_at := none }) ∧
    (¬ t < now - timeoutMinutes →
      findUser
          (release_stale_claims fromStatus timeoutMinutes now db).1 u =
        some w) := by
  refine ⟨rfl, ?_, ?_⟩
  · intro hlt
    rw [release_stale_find fromStatus timeoutMinutes now db u w h]
    have hst : isStale now timeoutMinutes w = true := by
      unfold isStale
      rw [hs, ht]
      simp [hlt]
    simp [hst]
  · intro hge
    rw [release_stale_find fromStatus timeoutMinutes now db u w h]
    have hst : isStale now timeoutMinutes w = false := by
      unfold isStale
      rw [hs, ht]
      simp [hge]
    simp [hst]

/-- Witness for C2: carol was claimed 2 staleTimeouts ago and is
released; dave was claimed half a staleTimeout ago and is kept. -/
theorem stale_claims_recovered_witness :
    findUser (release_stale_claims INITIAL 30 100 dbStale).1 "carol" =
      some { wCarol with
               enrichment_status := INITIAL
               claimed_by := none
               processing_started_at := none } ∧
    findUser (release_stale_claims INITIAL 30 100 dbStale).1 "dave" =
      some wDave :=
  ⟨(stale_claims_recovered dbStale "carol" wCarol INITIAL 50 "w9" 30
      100 40 (by decide) (by decide) (by decide)).2.1 (by decide),
   (stale_claims_recovered dbStale "dave" wDave INITIAL 50 "w9" 30
      100 85 (by decide) (by decide) (by decide)).2.2 (by decide)⟩

/-- C3: every repository write operation, invoked with the status
arguments the scraper uses (claiming from and retrying back to a
non-PROCESSING status), preserves the invariant that claim_owner and
claimed_at are non-null exactly on PROCESSING rows. -/
theorem claim_fields_invariant (db : Database) (op : RepoOp)
    (hdb : ClaimInvariant db) (hop : OpStatusOk op) :
    ClaimInvariant (applyOp db op) := by
  cases op with
  | insertBatch usernames =>
      exact insert_fold_inv usernames db (-1) hdb
  | claimBatch fromStatus lim instance_id timeoutMinutes now =>
      unfold applyOp claim_batch_for_processing claim_step
      dsimp only
      exact mark_claimed_inv _ _ _
        (release_stale_inv hop timeoutMinutes now hdb)
  | commitProfile p now => exact update_profile_inv p now hdb
  | recordFailure u e => exact mark_as_failed_inv u e hdb
  | recordRetry u e back_to_status =>
      exact increment_retry_inv u e hop hdb

/-- Witness for C3: a claim from INITIAL over a two-row table. -/
theorem claim_fields_invariant_witness :
    ClaimInvariant
      (applyOp dbTwo (RepoOp.claimBatch INITIAL 1 "w1" 30 100)) :=
  claim_fields_invariant dbTwo
    (RepoOp.claimBatch INITIAL 1 "w1" 30 100) (by decide) (by decide)

/-- C4 counterexample: committing a profile whose data holds no
social links and no repositories succeeds (row set to PROFILED), yet
a social_links child row written by an earlier commit is still there
afterwards: update_profile upserts the child rows built from the new
data and does not delete rows whose key is absent from it, so it
does not replace the child-row set. -/
theorem commit_profile_not_replacing_counterexample :
    pNoLinks.social_links = ({} : SocialLinks) ∧
    pNoLinks.top_repos = [] ∧
    (update_profile pNoLinks 5 dbChild).1 = some 1 ∧
    (findUser (update_profile pNoLinks 5 dbChild).2 "alice").map
        (fun w => w.enrichment_status) = some PROFILED ∧
    (update_profile pNoLinks 5 dbChild).2.social_links =
      [{ developer_id := 1, platform := "twitter",
         url := "https://twitter.com/old" }] := by
  decide

/-- C4 amended: update_profile runs the row update and the child-row
upserts in one transaction: if the child-row step raises, the commit
rolls back and the store is exactly as before (no partial state); on
success the committed row carries the profile fields, status
PROFILED, profiled_at set, retry_count 0 and cleared claim fields,
and every SocialLink and Repository row built from the new data is
present in the committed state with exactly the committed content
(inserted, or overwriting the row that held its key). -/
theorem commit_profile_atomic (p : Profile) (now : Int)
    (db : Database)
    (fault : Nat → Database → Except String Database) :
    (∀ (e : String) (db2 : Database),
        update_profile_tx fault p now db = (Except.error e, db2) →
        db2 = db) ∧
    (∀ (developer_id : Nat) (db2 : Database) (w : WorkItem),
        update_profile p now db = (some developer_id, db2) →
        findUser db p.username = some w →
        developer_id = w.id ∧
        findUser db2 p.username = some (profiledRow p now w)) ∧
    (∀ (developer_id : Nat) (db2 : Database) (w : WorkItem),
        update_profile p now db = (some developer_id, db2) →
        findUser db p.username = some w →
        (socialLinkTriples w.id p.social_links).Pairwise (fun a b =>
          ¬(a.developer_id = b.developer_id ∧
              a.platform = b.platform)) →
        ∀ row ∈ socialLinkTriples w.id p.social_links,
          findSocialLink db2 row.developer_id row.platform =
            some row) ∧
    (∀ (developer_id : Nat) (db2 : Database) (w : WorkItem),
        update_profile p now db = (some developer_id, db2) →
        findUser db p.username = some w →
        (repositoryRows w.id p.top_repos).Pairwise (fun a b =>
          ¬(a.developer_id = b.developer_id ∧ a.name = b.name)) →
        ∀ row ∈ repositoryRows w.id p.top_repos,
          findRepository db2 row.developer_id row.name = some row) := by
  refine ⟨?_, ?_, ?_, ?_⟩
  · intro e db2 h
    exact get_cursor_rollback db _ e db2 h
  · intro developer_id db2 w h hw
    rw [update_profile_eq, hw] at h
    rw [Prod.mk.injEq] at h
    obtain ⟨h1, h2⟩ := h
    refine ⟨(Option.some.inj h1).symm, ?_⟩
    rw [← h2]
    rw [findUser_children]
    rw [findUser_map_if hw (fun r => r.username = p.username)
      (profiledRow p now) (fun _ => rfl)]
    simp [findUser_username hw]
  · intro developer_id db2 w h hw hdist row hrow
    rw [update_profile_eq, hw] at h
    rw [Prod.mk.injEq] at h
    obtain ⟨h1, h2⟩ := h
    rw [← h2, findSocialLink_insert_repositories]
    exact insert_social_links_lookup w.id p.social_links _ hdist
      row hrow
  · intro developer_id db2 w h hw hdist row hrow
    rw [update_profile_eq, hw] at h
    rw [Prod.mk.injEq] at h
    obtain ⟨h1, h2⟩ := h
    rw [← h2]
    exact insert_repositories_lookup w.id p.top_repos _ hdist
      row hrow

/-- Witness for C4: a faulting child insertion leaves the store
untouched; a successful commit writes the profiled row and both
child rows of the committed data. -/
theorem commit_profile_atomic_witness :
    (update_profile_tx faultBoom pAlice 5 dbTwo).2 = dbTwo ∧
    ((1 : Nat) = wAlice.id ∧
      findUser (update_profile pAlice 5 dbTwo).2 "alice" =
        some (profiledRow pAlice 5 wAlice)) ∧
    findSocialLink (update_profile pAlice 5 dbTwo).2 1 "linkedin" =
      some { developer_id := 1, platform := "linkedin",
             url := "https://linkedin.com/in/alice" } ∧
    findRepository (update_profile pAlice 5 dbTwo).2 1 "repo1" =
      some { developer_id := 1, name := "repo1", stars := 3,
             language := none, url := none, description := none,
             repo_order := 0 } :=
  ⟨(commit_profile_atomic pAlice 5 dbTwo faultBoom).1 "boom"
      (update_profile_tx faultBoom pAlice 5 dbTwo).2 rfl,
   (commit_profile_atomic pAlice 5 dbTwo faultBoom).2.1 1
      (update_profile pAlice 5 dbTwo).2 wAlice rfl (by decide),
   (commit_profile_atomic pAlice 5 dbTwo faultBoom).2.2.1 1
      (update_profile pAlice 5 dbTwo).2 wAlice rfl (by decide)
      (by decide)
      { developer_id := 1, platform := "linkedin",
        url := "https://linkedin.com/in/alice" } (by decide),
   (commit_profile_atomic pAlice 5 dbTwo faultBoom).2.2.2 1
      (update_profile pAlice 5 dbTwo).2 wAlice rfl (by decide)
      (by decide)
      { developer_id := 1, name := "repo1", stars := 3,
        language := none, url := none, description := none,
        repo_order := 0 } (by decide)⟩

/-- C5 counterexample: with MAX_RETRIES = 3, an API that is
rate-limited on calls 0, 1 and 2 and would succeed on call 3 makes
fetch_profile give up with None after exactly 3 calls: every
rate-limit outcome consumed one attempt of the MAX_RETRIES budget
even though no Transient failure occurred, and the available success
was never attempted. -/
theorem quota_consumes_budget_counterexample :
    oracleC5 0 = AttemptOutcome.rateLimited ∧
    oracleC5 1 = AttemptOutcome.rateLimited ∧
    oracleC5 2 = AttemptOutcome.rateLimited ∧
    oracleC5 3 = AttemptOutcome.ok pAlice ∧
    (fetch_profile 3 oracleC5 "alice" stEmpty).1 = none ∧
    (fetch_profile 3 oracleC5 "alice" stEmpty).2.calls = 3 ∧
    (fetch_profile 3 oracleC5 "alice" stEmpty).2.metrics.rate_limit = 3 ∧
    (fetch_profile 3 oracleC5 "alice" stEmpty).2.metrics.retries = 3 := by
  decide

/-- C5 amended: a QuotaExceeded outcome rotates the credential,
pauses one cooldown and increments the rate_limit and retries
metrics, and then continues with the next iteration of the for loop,
so it consumes exactly one attempt of the MAX_RETRIES budget (the
remaining run is the same fetch with one fewer attempt). -/
theorem quota_rotates_and_consumes_attempt (max_retries : Nat)
    (oracle : Nat → AttemptOutcome) (u : String) (st : FetchSt)
    (h : oracle st.calls = AttemptOutcome.rateLimited) :
    fetch_profile (max_retries + 1) oracle u st =
      fetch_profile max_retries oracle u
        { st with
            calls := st.calls + 1
            cooldowns := st.cooldowns + 1
            metrics :=
              { st.metrics with
                  rate_limit := st.metrics.rate_limit + 1
                  retries := st.metrics.retries + 1 } } :=
  fetchAux_rate_limited_step oracle u max_retries st h

/-- Witness for the amended C5. -/
theorem quota_rotates_witness :
    fetch_profile 1 oracleRL "alice" stEmpty =
      fetch_profile 0 oracleRL "alice"
        { stEmpty with
            calls := 1
            cooldowns := 1
            metrics := { rate_limit := 1, retries := 1 } } :=
  quota_rotates_and_consumes_attempt 0 oracleRL "alice" stEmpty rfl

/-- C6 counterexample: with MAX_RETRIES = 3 and an upstream
not-found error on every call, the item is not recorded FAILED
immediately: the generic exception handler retries it twice more
(3 API calls, 2 backoff sleeps) before mark_as_failed runs, because
the code has no dedicated permanent-error path. -/
theorem permanent_error_retried_counterexample :
    oracle404 0 = AttemptOutcome.err "404 user not found" ∧
    (fetch_profile 3 oracle404 "ghost" stGhost).1 = none ∧
    (fetch_profile 3 oracle404 "ghost" stGhost).2.calls = 3 ∧
    (fetch_profile 3 oracle404 "ghost" stGhost).2.sleeps = 2 ∧
    findUser (fetch_profile 3 oracle404 "ghost" stGhost).2.db "ghost" =
      some { wGhost with
               enrichment_status := FAILED
               last_error := some "404 user not found"
               retry_count := 1
               claimed_by := none
               processing_started_at := none } := by
  decide

/-- C6 amended: a permanent upstream error is caught by the generic
exception handler and treated exactly like a Transient failure: with
n+1 attempts the fetch makes n+1 calls and n backoff sleeps, then
marks the item FAILED and returns None. -/
theorem permanent_error_exhausts_retries (n : Nat) (e u : String)
    (st : FetchSt) :
    (fetch_profile (n + 1) (fun _ => AttemptOutcome.err e) u st).1 =
        none ∧
    (fetch_profile (n + 1) (fun _ => AttemptOutcome.err e) u st).2.db =
        mark_as_failed u e st.db ∧
    (fetch_profile (n + 1) (fun _ => AttemptOutcome.err e) u st).2.calls =
        st.calls + (n + 1) ∧
    (fetch_profile (n + 1) (fun _ => AttemptOutcome.err e) u st).2.sleeps =
        st.sleeps + n ∧
    (fetch_profile (n + 1)
        (fun _ => AttemptOutcome.err e) u st).2.metrics.retries =
      st.metrics.retries + (n + 1) := by
  induction n generalizing st with
  | zero =>
      refine ⟨rfl, rfl, ?_, ?_, ?_⟩ <;> rfl
  | succ k ih =>
      have hstep :
          fetch_profile (k + 1 + 1)
              (fun _ => AttemptOutcome.err e) u st =
            fetch_profile (k + 1) (fun _ => AttemptOutcome.err e) u
              { st with
                  calls := st.calls + 1
                  sleeps := st.sleeps + 1
                  metrics :=
                    { st.metrics with
                        retries := st.metrics.retries + 1 } } := by
        unfold fetch_profile
        conv_lhs => rw [fetchAux]
        rfl
      obtain ⟨i1, i2, i3, i4, i5⟩ := ih
        { st with
            calls := st.calls + 1
            sleeps := st.sleeps + 1
            metrics :=
              { st.metrics with retries := st.metrics.retries + 1 } }
      rw [hstep]
      refine ⟨i1, i2, ?_, ?_, ?_⟩
      · rw [i3]
        show st.calls + 1 + (k + 1) = st.calls + (k + 1 + 1)
        omega
      · rw [i4]
        show st.sleeps + 1 + k = st.sleeps + (k + 1)
        omega
      · rw [i5]
        show st.metrics.retries + 1 + (k + 1) =
          st.metrics.retries + (k + 1 + 1)
        omega

/-- C7 evaluation: inserting two fresh identifiers into an empty
table adds 2 rows but insert_usernames_batch returns 1 (the rowcount
of the last statement of the execute_batch page); re-inserting an
existing identifier adds no row, raises nothing, and returns 0. -/
theorem insert_batch_rowcount_bug :
    (insert_usernames_batch {} ["alice", "bob"]).2 = 1 ∧
    newlyInserted {} ["alice", "bob"] = 2 ∧
    (insert_usernames_batch
        (insert_usernames_batch {} ["alice", "bob"]).1
        ["alice"]).1.developers.length = 2 ∧
    (insert_usernames_batch
        (insert_usernames_batch {} ["alice", "bob"]).1
        ["alice"]).2 = 0 := by
  decide

/-- The claimed table of a claimBatch call, in closed form. -/
theorem claim_batch_snd (fromStatus : EnrichmentStatus) (lim : Nat)
    (inst : String) (timeoutMinutes now : Int) (db : Database) :
    (claim_batch_for_processing fromStatus lim inst timeoutMinutes
        now db).2 =
      mark_claimed inst now
        (claim_candidate_ids
          (release_stale_claims fromStatus timeoutMinutes now db).1
          fromStatus lim)
        (release_stale_claims fromStatus timeoutMinutes now db).1 :=
  rfl

/-- A stale PROCESSING row is reset by the stale-release step. -/
theorem release_stale_resets {db : Database} {u : String}
    {w : WorkItem} {fromStatus : EnrichmentStatus}
    (timeoutMinutes now2 t : Int) (h : findUser db u = some w)
    (hs : w.enrichment_status = PROCESSING)
    (ht : w.processing_started_at = some t)
    (hlt : t < now2 - timeoutMinutes) :
    findUser
        (release_stale_claims fromStatus timeoutMinutes now2 db).1 u =
      some { w with
               enrichment_status := fromStatus
               claimed_by := none
               processing_started_at := none } := by
  rw [release_stale_find fromStatus timeoutMinutes now2 db u w h]
  have hst : isStale now2 timeoutMinutes w = true := by
    unfold isStale
    rw [hs, ht]
    simp [hlt]
  simp [hst]

/-- C8: across every repository write operation, a row's retry_count
never decreases except through a commitProfile of that row, which
resets it to 0; recordFailure and recordRetry on the row increase it
by exactly one. -/
theorem retry_count_monotone (db : Database) (op : RepoOp)
    (u : String) (w w2 : WorkItem) (h : findUser db u = some w)
    (h2 : findUser (applyOp db op) u = some w2) :
    (((∃ p now, op = RepoOp.commitProfile p now ∧ p.username = u) ∧
        w2.retry_count = 0) ∨
      w.retry_count ≤ w2.retry_count) ∧
    (∀ e, op = RepoOp.recordFailure u e →
        w2.retry_count = w.retry_count + 1) ∧
    (∀ e bt, op = RepoOp.recordRetry u e bt →
        w2.retry_count = w.retry_count + 1) := by
  have hwu : w.username = u := findUser_username h
  cases op with
  | insertBatch usernames =>
      simp only [applyOp, insert_usernames_batch] at h2
      rw [insert_fold_find usernames db (-1) h] at h2
      have hw2 := Option.some.inj h2
      exact ⟨Or.inr (le_of_eq (by rw [hw2])),
        fun e heq => RepoOp.noConfusion heq,
        fun e bt heq => RepoOp.noConfusion heq⟩
  | claimBatch fromStatus lim inst timeoutMinutes now =>
      have hr := release_stale_find fromStatus timeoutMinutes now db u w h
      simp only [applyOp] at h2
      rw [claim_batch_snd] at h2
      unfold mark_claimed at h2
      rw [findUser_map_if hr
        (fun v => v.id ∈ claim_candidate_ids
          (release_stale_claims fromStatus timeoutMinutes now db).1
          fromStatus lim)
        (fun v => { v with
            enrichment_status := PROCESSING
            claimed_by := some inst
            processing_started_at := some now })
        (fun _ => rfl)] at h2
      have hw2 := Option.some.inj h2
      have hret : w2.retry_count = w.retry_count := by
        rw [← hw2]
        split
        · split <;> rfl
        · split <;> rfl
      exact ⟨Or.inr (le_of_eq hret.symm),
        fun e heq => RepoOp.noConfusion heq,
        fun e bt heq => RepoOp.noConfusion heq⟩
  | commitProfile p now =>
      simp only [applyOp] at h2
      rw [update_profile_eq] at h2
      cases hpw : findUser db p.username with
      | none =>
          rw [hpw] at h2
          rw [h] at h2
          have hw2 := Option.some.inj h2
          exact ⟨Or.inr (le_of_eq (by rw [hw2])),
            fun e heq => RepoOp.noConfusion heq,
            fun e bt heq => RepoOp.noConfusion heq⟩
      | some v =>
          rw [hpw] at h2
          rw [findUser_children] at h2
          rw [findUser_map_if h (fun r => r.username = p.username)
            (profiledRow p now) (fun _ => rfl)] at h2
          have hw2 := Option.some.inj h2
          by_cases hpu : w.username = p.username
          · rw [if_pos hpu] at hw2
            refine ⟨Or.inl ⟨⟨p, now, rfl, by rw [← hpu, hwu]⟩, ?_⟩,
              fun e heq => RepoOp.noConfusion heq,
              fun e bt heq => RepoOp.noConfusion heq⟩
            rw [← hw2]
            rfl
          · rw [if_neg hpu] at hw2
            exact ⟨Or.inr (le_of_eq (by rw [hw2])),
              fun e heq => RepoOp.noConfusion heq,
              fun e bt heq => RepoOp.noConfusion heq⟩
  | recordFailure u0 e0 =>
      simp only [applyOp] at h2
      unfold mark_as_failed at h2
      rw [findUser_map_if h (fun v => v.username = u0)
        (fun v => { v with
            enrichment_status := FAILED
            last_error := some e0
            retry_count := v.retry_count + 1
            claimed_by := none
            processing_started_at := none })
        (fun _ => rfl)] at h2
      have hw2 := Option.some.inj h2
      by_cases hc : w.username = u0
      · rw [if_pos hc] at hw2
        refine ⟨Or.inr ?_, ?_, fun e bt heq => RepoOp.noConfusion heq⟩
        · rw [← hw2]
          exact Nat.le_succ _
        · intro e heq
          rw [← hw2]
      · rw [if_neg hc] at hw2
        refine ⟨Or.inr (le_of_eq (by rw [hw2])), ?_,
          fun e bt heq => RepoOp.noConfusion heq⟩
        intro e heq
        injection heq with hu he
        exact absurd (hwu.trans hu.symm) hc
  | recordRetry u0 e0 bt0 =>
      simp only [applyOp] at h2
      unfold increment_retry_count at h2
      dsimp only at h2
      rw [findUser_map_if h (fun v => v.username = u0)
        (fun v => { v with
            retry_count := v.retry_count + 1
            last_error := some e0
            enrichment_status := bt0
            claimed_by := none
            processing_started_at := none })
        (fun _ => rfl)] at h2
      have hw2 := Option.some.inj h2
      by_cases hc : w.username = u0
      · rw [if_pos hc] at hw2
        refine ⟨Or.inr ?_, fun e heq => RepoOp.noConfusion heq, ?_⟩
        · rw [← hw2]
          exact Nat.le_succ _
        · intro e bt heq
          rw [← hw2]
      · rw [if_neg hc] at hw2
        refine ⟨Or.inr (le_of_eq (by rw [hw2])),
          fun e heq => RepoOp.noConfusion heq, ?_⟩
        intro e bt heq
        injection heq with hu he hbt
        exact absurd (hwu.trans hu.symm) hc

/-- Witness for C8: a recordRetry bumps the count from 2 to 3. -/
theorem retry_count_monotone_witness :
    findUser
        (applyOp dbRetry (RepoOp.recordRetry "alice" "boom" INITIAL))
        "alice" =
      some { wAliceRetry with
               retry_count := 3
               last_error := some "boom" } ∧
    ({ wAliceRetry with
         retry_count := 3
         last_error := some "boom" } : WorkItem).retry_count =
      wAliceRetry.retry_count + 1 :=
  ⟨by decide,
   (retry_count_monotone dbRetry
      (RepoOp.recordRetry "alice" "boom" INITIAL) "alice" wAliceRetry
      { wAliceRetry with retry_count := 3, last_error := some "boom" }
      (by decide) (by decide)).2.2 "boom" INITIAL rfl⟩

/-- C9: link classification is a pure function of the user text (a
plain function in this model), and on the spec scenario bio with
null blog and handle fields it yields exactly the linkedin and
telegram links, all other platform fields null and no other
links. -/
theorem link_extraction_scenario :
    extract_social_links
        { bio := some "LinkedIn: linkedin.com/in/johndoe, see t.me/johndoe"
          blog := none
          twitter_username := none } =
      { twitter := none
        linkedin := some "https://linkedin.com/in/johndoe"
        facebook := none
        instagram := none
        telegram := some "https://t.me/johndoe"
        youtube := none
        medium := none
        dev_to := none
        hashnode := none
        stackoverflow := none
        other_links := [] } := by
  decide

/-- C10: if every attempt of a fetch is rate-limited, the fetch
returns None without any store write, the processing loop only bumps
the failed metric (success untouched, store untouched, so the item
stays PROCESSING), and the item is only recovered when a later
claimBatch releases it as a stale claim. -/
theorem all_quota_leaves_item_processing (max_retries : Nat)
    (oracle : Nat → AttemptOutcome)
    (h : ∀ k, oracle k = AttemptOutcome.rateLimited) (u : String)
    (now : Int) (st : FetchSt) :
    (process_claimed_username max_retries oracle u now st).db =
        st.db ∧
    (process_claimed_username max_retries oracle u now st).metrics.failed =
        st.metrics.failed + 1 ∧
    (process_claimed_username max_retries oracle u now st).metrics.success =
        st.metrics.success ∧
    (∀ (w : WorkItem) (t : Int) (fromStatus : EnrichmentStatus)
        (timeoutMinutes now2 : Int),
      findUser st.db u = some w →
      w.enrichment_status = PROCESSING →
      w.processing_started_at = some t →
      t < now2 - timeoutMinutes →
      findUser
          (release_stale_claims fromStatus timeoutMinutes now2
            st.db).1 u =
        some { w with
                 enrichment_status := fromStatus
                 claimed_by := none
                 processing_started_at := none }) := by
  obtain ⟨a1, a2, a3, a4⟩ := fetch_all_rate_limited oracle h u
    max_retries
    { st with
        metrics :=
          { st.metrics with processed := st.metrics.processed + 1 } }
  unfold process_claimed_username
  dsimp only
  rw [a1]
  refine ⟨?_, ?_, ?_, ?_⟩
  · exact a2
  · rw [a3]
  · exact a4
  · intro w t fromStatus timeoutMinutes now2 hw hs ht hlt
    exact release_stale_resets timeoutMinutes now2 t hw hs ht hlt

/-- Witness for C10 over a one-row claimed table. -/
theorem all_quota_leaves_item_processing_witness :
    (process_claimed_username 3 oracleRL "ghost" 7 stGhost).db =
        stGhost.db ∧
    (process_claimed_username 3 oracleRL "ghost" 7
        stGhost).metrics.failed = 1 ∧
    findUser (release_stale_claims INITIAL 30 100 stGhost.db).1
        "ghost" =
      some { wGhost with
               enrichment_status := INITIAL
               claimed_by := none
               processing_started_at := none } := by
  have ht := all_quota_leaves_item_processing 3 oracleRL
    (fun _ => rfl) "ghost" 7 stGhost
  exact ⟨ht.1, ht.2.1, ht.2.2.2 wGhost 0 INITIAL 30 100 (by decide)
    (by decide) (by decide) (by decide)⟩

end GithubScraper
